import Mathlib

/-!
Verification of the sxprs s-expression interpreter (src/main.rs).

The program is a single-file pipeline: a lexer (`tokens`), a recursive-descent
parser (`parse` / `read_seq`), and a tree-walking evaluator (`LispInfo::value`)
over a fixed table of builtin operations, whose numeric result becomes the
process exit code (`main`).

Embedding conventions:
* `f64` numbers are modelled as `ℚ`.  The inputs exercised here are small
  integers, on which IEEE double arithmetic, parsing and printing are exact,
  so the rational model agrees with the Rust semantics.  (`inf`/`NaN` literals,
  rounding of non-representable decimals, and out-of-`i32`-range truncation
  are float-specific corners not touched by any claim.)
* `Result<T, ListError>` is modelled as `Except String T`, the `String` being
  the `ListError`'s message (the error type is a plain message wrapper).
* Rust recursion through the `HashMap` of boxed closures is modelled by
  passing the evaluator itself to each handler (the role played by `&LispInfo`
  in the source), with a fuel parameter bounding the recursion depth; the
  fuel `lsize e` strictly exceeds the evaluation depth, which is proved by
  the stability lemma `valueFuel_stable` below.
* `print`/`'` write to stdout; the stream is not modelled, only the returned
  expression (no claim concerns the output stream).
-/

namespace Sxprs

/-- `enum LispExp { Symbol(String), Number(f64), List(Vec<LispExp>) }`. -/
inductive LispExp where
  | Symbol : String → LispExp
  | Number : ℚ → LispExp
  | List : List LispExp → LispExp

mutual
/-- Structural size of an expression, used as evaluation fuel. -/
def lsize : LispExp → Nat
  | .Symbol _ => 1
  | .Number _ => 1
  | .List l => lsizeList l + 1

def lsizeList : List LispExp → Nat
  | [] => 0
  | a :: r => lsize a + lsizeList r
end

/-- `LispExp::name`. -/
def LispExp.name : LispExp → String
  | .Number _ => "Number"
  | .Symbol _ => "Symbol"
  | .List _ => "List"

/-- Whether the expression is the `Number` variant. -/
def LispExp.isNumber : LispExp → Bool
  | .Number _ => true
  | _ => false

/-- Whether the expression is the `Symbol` variant. -/
def LispExp.isSymbol : LispExp → Bool
  | .Symbol _ => true
  | _ => false

/-- Left-pad a digit string with zeros to width `k`. -/
def pad0 (k : Nat) (s : String) : String :=
  String.mk (List.replicate (k - s.length) '0') ++ s

/-- Smallest `k ≤ 39` with `den ∣ 10 ^ k`, if any. -/
def pow10Exp (den : Nat) : Option Nat :=
  (List.range 40).find? (fun k => 10 ^ k % den == 0)

/-- Decimal rendering of the non-negative rational `n / den`.  Rust prints an
`f64` as its shortest exact decimal; on the rationals produced by this program
(decimal literals combined by `+`/`-`) that is this exact decimal expansion.
`forceDot` reproduces the `{:?}` format, which prints integers as `6.0`. -/
def decimalRepr (forceDot : Bool) (n den : Nat) : String :=
  if den = 1 then toString n ++ (if forceDot then ".0" else "")
  else
    match pow10Exp den with
    | some k => toString (n / den) ++ "." ++ pad0 k (toString (n % den * 10 ^ k / den))
    | none => toString n ++ "/" ++ toString den

/-- Rendering of a number by Rust's `{}` format (e.g. `6`, `0.5`, `-2`). -/
def ratDisplayRepr (q : ℚ) : String :=
  (if q.num < 0 then "-" else "") ++ decimalRepr false q.num.natAbs q.den

/-- Rendering of a number by Rust's `{:?}` format (e.g. `6.0`, `0.5`). -/
def ratDebugRepr (q : ℚ) : String :=
  (if q.num < 0 then "-" else "") ++ decimalRepr true q.num.natAbs q.den

/-- Fuelled helper for `LispExp.display`. -/
def displayFuel : Nat → LispExp → String
  | 0, _ => ""
  | _fuel+1, .Symbol symb => "\"" ++ symb ++ "\""
  | _fuel+1, .Number num => ratDisplayRepr num
  | fuel+1, .List cdr =>
      "( " ++ String.intercalate " " (cdr.map (fun x => displayFuel fuel x)) ++ " )"

/-- `impl Display for LispExp`: symbols render quoted, numbers by value, lists
space-joined inside `( … )`.  (`lsize` strictly exceeds the nesting depth, so
the fuel never runs out.) -/
def LispExp.display (e : LispExp) : String := displayFuel (lsize e) e

/-- Fuelled helper for `LispExp.debugRepr`. -/
def debugFuel : Nat → LispExp → String
  | 0, _ => ""
  | _fuel+1, .Symbol symb => "Symbol(" ++ "\"" ++ symb ++ "\"" ++ ")"
  | _fuel+1, .Number num => "Number(" ++ ratDebugRepr num ++ ")"
  | fuel+1, .List cdr =>
      "List([" ++ String.intercalate ", " (cdr.map (fun x => debugFuel fuel x)) ++ "])"

/-- The derived `Debug` form (`{:?}`) of an expression, e.g. `Symbol("foo")`.
(Rust additionally backslash-escapes special characters inside the symbol
text; the symbols reasoned about here contain none.) -/
def LispExp.debugRepr (e : LispExp) : String := debugFuel (lsize e) e

/-- Message of the `get_symbol` type mismatch:
`format!("`{self}`\n{self:?}\nis not a symbol, it's a {}", self.name())`. -/
def notSymbolMsg (e : LispExp) : String :=
  "`" ++ e.display ++ "`\n" ++ e.debugRepr ++ "\nis not a symbol, it's a " ++ e.name

/-- Message of the `get_number` type mismatch:
`format!("{self:?} is not a number")`. -/
def notNumberMsg (e : LispExp) : String := e.debugRepr ++ " is not a number"

/-- `LispExp::get_symbol`. -/
def LispExp.get_symbol : LispExp → Except String String
  | .Symbol n => .ok n
  | e => .error (notSymbolMsg e)

/-- `LispExp::get_number`. -/
def LispExp.get_number : LispExp → Except String ℚ
  | .Number n => .ok n
  | e => .error (notNumberMsg e)

/-! ## Lexer -/

/-- `enum Parser { OnSymbol, OnString { on_special: bool } }`. -/
inductive Parser where
  | OnSymbol : Parser
  | OnString : Bool → Parser

/-- Rust's `char::is_whitespace` (the Unicode `White_Space` property). -/
def rustIsWhitespace (c : Char) : Bool :=
  c == ' ' || c == '\t' || c == '\n' || c == '\x0b' || c == '\x0c' || c == '\r' ||
  c == '\u0085' || c == '\u00A0' || c == '\u1680' ||
  c == '\u2000' || c == '\u2001' || c == '\u2002' || c == '\u2003' || c == '\u2004' ||
  c == '\u2005' || c == '\u2006' || c == '\u2007' || c == '\u2008' || c == '\u2009' ||
  c == '\u200A' || c == '\u2028' || c == '\u2029' || c == '\u202F' || c == '\u205F' ||
  c == '\u3000'

/-- One iteration of the `for chr in content.chars()` loop of `tokens`: the
state is the `Parser` mode, the emitted token list `ret` and the pending
`buffer`. -/
def tokStep (st : Parser) (ret : List String) (buffer : String) (chr : Char) :
    Except String (Parser × List String × String) :=
  match st with
  | .OnSymbol =>
    if chr = '(' then .ok (.OnSymbol, ret ++ [buffer, "("], "")
    else if chr = ')' then .ok (.OnSymbol, ret ++ [buffer, ")"], "")
    else if chr = ' ' ∨ chr = '\n' ∨ chr = '\t' then .ok (.OnSymbol, ret ++ [buffer], "")
    else if chr = '"' then .ok (.OnString false, ret, buffer)
    else if rustIsWhitespace chr then .ok (.OnSymbol, ret, buffer)
    else .ok (.OnSymbol, ret, buffer.push chr)
  | .OnString true =>
    if chr = '"' then .ok (.OnString false, ret, buffer.push '"')
    else if chr = '\\' then .ok (.OnString false, ret, buffer.push '\\')
    else if chr = 'n' then .ok (.OnString false, ret, buffer.push '\n')
    else .error ("no special formatting for '\\" ++ String.singleton chr ++ "'")
  | .OnString false =>
    if chr = '"' then .ok (.OnSymbol, ret ++ [buffer], "")
    else if chr = '\\' then .ok (.OnString true, ret, buffer)
    else .ok (.OnString false, ret, buffer.push chr)

/-- The character loop of `tokens`, returning the final emitted tokens,
pending buffer and state. -/
def tokensLoop : List Char → Parser → List String → String →
    Except String (List String × String × Parser)
  | [], st, ret, buf => .ok (ret, buf, st)
  | c :: cs, st, ret, buf =>
    match tokStep st ret buf c with
    | .error e => .error e
    | .ok (st', ret', buf') => tokensLoop cs st' ret' buf'

/-- `fn tokens(content: String) -> Result<Vec<String>, ListError>`: run the
state machine over the characters and drop every empty token.  The final
`buffer` (and string state) is discarded, exactly as in the source. -/
def tokens (content : String) : Except String (List String) :=
  match tokensLoop content.toList .OnSymbol [] "" with
  | .error e => .error e
  | .ok (ret, _buf, _st) => .ok (ret.filter (fun x => x ≠ ""))

/-! ## Parser -/

/-- Leading decimal digits of a character list, and the rest. -/
def takeDigits : List Char → List Char × List Char
  | [] => ([], [])
  | c :: r =>
    if c.isDigit then
      let (ds, rest) := takeDigits r
      (c :: ds, rest)
    else ([], c :: r)

/-- Numeric value of a digit list. -/
def digitsVal (ds : List Char) : Nat :=
  ds.foldl (fun a c => a * 10 + (c.toNat - '0'.toNat)) 0

/-- `10 ^ n` in `ℚ`. -/
def qpow10 : Nat → ℚ
  | 0 => 1
  | n+1 => 10 * qpow10 n

/-- `token.parse::<f64>()`, modelled exactly on the `FromStr` grammar for
finite decimals: optional sign, then `Digit+ | Digit+ '.' Digit* |
Digit* '.' Digit+`, then an optional `e|E` exponent with optional sign and at
least one digit.  (`inf`/`infinity`/`NaN`, also accepted by Rust, have no
image in `ℚ` and are not modelled; no claim involves them.) -/
def parseFloat? (s : String) : Option ℚ :=
  let cs := s.toList
  let sgn : ℚ × List Char :=
    match cs with
    | '+' :: r => (1, r)
    | '-' :: r => (-1, r)
    | _ => (1, cs)
  let (ip, cs2) := takeDigits sgn.2
  let (fp, cs3) :=
    match cs2 with
    | '.' :: r => takeDigits r
    | _ => (([] : List Char), cs2)
  if ip.isEmpty && fp.isEmpty then none
  else
    let mant : ℚ := (digitsVal ip : ℚ) + (digitsVal fp : ℚ) / qpow10 fp.length
    match cs3 with
    | [] => some (sgn.1 * mant)
    | e :: r =>
      if e = 'e' ∨ e = 'E' then
        let esgn : Bool × List Char :=
          match r with
          | '+' :: r2 => (true, r2)
          | '-' :: r2 => (false, r2)
          | _ => (true, r)
        let (eds, r2) := takeDigits esgn.2
        if eds.isEmpty ∨ ¬ r2.isEmpty then none
        else if esgn.1 then some (sgn.1 * mant * qpow10 (digitsVal eds))
        else some (sgn.1 * mant / qpow10 (digitsVal eds))
      else none

/-- `fn parse_atom(token: &str) -> LispExp`: a float if it parses, else a
symbol holding the literal text. -/
def parse_atom (token : String) : LispExp :=
  match parseFloat? token with
  | some q => .Number q
  | none => .Symbol token

mutual
/-- Fuelled mutual recursion for `parse` / `read_seq`.  The fuel only bounds
the recursion depth; `parseRead_sound` shows `2·len + 2` never runs out. -/
def parseFuel : Nat → List String → Except String (LispExp × List String)
  | 0, _ => .error "parser fuel exhausted"
  | fuel+1, ts =>
    match ts with
    | [] => .error "could not get token"
    | token :: rest =>
      if token = "(" then readSeqFuel fuel rest []
      else if token = ")" then .error "unexpected `)`"
      else .ok (parse_atom token, rest)

def readSeqFuel : Nat → List String → List LispExp → Except String (LispExp × List String)
  | 0, _, _ => .error "parser fuel exhausted"
  | fuel+1, xs, res =>
    match xs with
    | [] => .error "could not find closing `)`"
    | next_token :: rest =>
      if next_token = ")" then .ok (.List res, rest)
      else
        match parseFuel fuel xs with
        | .error e => .error e
        | .ok (exp, new_xs) => readSeqFuel fuel new_xs (res ++ [exp])
end

/-- `fn parse(tokens: &[String]) -> Result<(LispExp, &[String]), ListError>`:
split off the first token; `(` opens a sequence read, `)` is an error, and
anything else is an atom. -/
def parse (ts : List String) : Except String (LispExp × List String) :=
  parseFuel (2 * ts.length + 2) ts

/-! ## Evaluator -/

/-- Type of the evaluator passed into each builtin handler (the role of
`&LispInfo` in `LispFN`). -/
abbrev EvalFn := LispExp → Except String LispExp

/-- `fn unpack(cont: &[LispExp]) -> Result<(&LispExp, &[LispExp]), ListError>`. -/
def unpack : List LispExp → Except String (LispExp × List LispExp)
  | [] => .error "could not get token"
  | car :: cdr => .ok (car, cdr)

/-- `fn get_floats(cont: &[LispExp]) -> Result<Vec<f64>, ListError>`: map
`get_number` over the slice, stopping at the first non-number. -/
def get_floats : List LispExp → Except String (List ℚ)
  | [] => .ok []
  | a :: l =>
    match a.get_number with
    | .error e => .error e
    | .ok q =>
      match get_floats l with
      | .error e => .error e
      | .ok qs => .ok (q :: qs)

/-- `fn eval_all(env, r)`: evaluate every element left to right, stopping at
the first error. -/
def eval_all (value : EvalFn) : List LispExp → Except String (List LispExp)
  | [] => .ok []
  | a :: l =>
    match value a with
    | .error e => .error e
    | .ok v =>
      match eval_all value l with
      | .error e => .error e
      | .ok vs => .ok (v :: vs)

/-- `fn lisp_add`: evaluate all arguments, unpack the first, require it (and
the rest) numeric, fold by addition. -/
def lisp_add (value : EvalFn) (cont : List LispExp) : Except String LispExp :=
  match eval_all value cont with
  | .error e => .error e
  | .ok cont =>
    match unpack cont with
    | .error e => .error e
    | .ok (car, cdr) =>
      match car.get_number with
      | .error e => .error e
      | .ok car =>
        match get_floats cdr with
        | .error e => .error e
        | .ok fs => .ok (.Number (fs.foldl (fun acc f => acc + f) car))

/-- `fn lisp_sub`: as `lisp_add` but folding by subtraction. -/
def lisp_sub (value : EvalFn) (cont : List LispExp) : Except String LispExp :=
  match eval_all value cont with
  | .error e => .error e
  | .ok cont =>
    match unpack cont with
    | .error e => .error e
    | .ok (car, cdr) =>
      match car.get_number with
      | .error e => .error e
      | .ok car =>
        match get_floats cdr with
        | .error e => .error e
        | .ok fs => .ok (.Number (fs.foldl (fun acc f => acc - f) car))

/-- `fn lisp_mul`: the source folds with `acc + f`, identical to `lisp_add`. -/
def lisp_mul (value : EvalFn) (cont : List LispExp) : Except String LispExp :=
  match eval_all value cont with
  | .error e => .error e
  | .ok cont =>
    match unpack cont with
    | .error e => .error e
    | .ok (car, cdr) =>
      match car.get_number with
      | .error e => .error e
      | .ok car =>
        match get_floats cdr with
        | .error e => .error e
        | .ok fs => .ok (.Number (fs.foldl (fun acc f => acc + f) car))

/-- `fn lisp_div`: the source folds with `acc + f`, identical to `lisp_add`. -/
def lisp_div (value : EvalFn) (cont : List LispExp) : Except String LispExp :=
  match eval_all value cont with
  | .error e => .error e
  | .ok cont =>
    match unpack cont with
    | .error e => .error e
    | .ok (car, cdr) =>
      match car.get_number with
      | .error e => .error e
      | .ok car =>
        match get_floats cdr with
        | .error e => .error e
        | .ok fs => .ok (.Number (fs.foldl (fun acc f => acc + f) car))

/-- `fn lisp_debug` (`'`): prints its raw arguments (stream not modelled) and
returns numeric zero; it never evaluates and never fails. -/
def lisp_debug (_value : EvalFn) (_cont : List LispExp) : Except String LispExp :=
  .ok (.Number 0)

/-- `fn lisp_print`: evaluate all arguments, print them (stream not
modelled), return numeric zero. -/
def lisp_print (value : EvalFn) (cont : List LispExp) : Except String LispExp :=
  match eval_all value cont with
  | .error e => .error e
  | .ok _cont => .ok (.Number 0)

/-- `fn lisp_also` (`,`): evaluate all arguments and return the last; with no
arguments the error message is the empty string. -/
def lisp_also (value : EvalFn) (cont : List LispExp) : Except String LispExp :=
  match eval_all value cont with
  | .error e => .error e
  | .ok ev =>
    match ev.getLast? with
    | none => .error ""
    | some x => .ok x

/-- `fn builtin_funcs()`: the fixed `HashMap` of builtin handlers, modelled
as its lookup function. -/
def builtin_funcs (s : String) : Option (EvalFn → List LispExp → Except String LispExp) :=
  if s = "+" then some lisp_add
  else if s = "-" then some lisp_sub
  else if s = "*" then some lisp_mul
  else if s = "/" then some lisp_div
  else if s = "print" then some lisp_print
  else if s = "'" then some lisp_debug
  else if s = "," then some lisp_also
  else none

/-- `LispInfo::exec`: look the operation up again and apply it. -/
def exec (value : EvalFn) (car : String) (cdr : List LispExp) : Except String LispExp :=
  match builtin_funcs car with
  | none => .error ("can't find function " ++ car)
  | some func => func value cdr

/-- Body of `LispInfo::value`, abstracted over the recursive evaluator (the
role `&self` plays for the boxed handlers): a list is split into head and
tail, the head must be a symbol, registered heads dispatch through `exec`,
unregistered heads fail when arguments are present and otherwise evaluate to
the head itself; non-lists are returned unchanged. -/
def valueBody (value : EvalFn) (vl : LispExp) : Except String LispExp :=
  match vl with
  | .List stuff =>
    match stuff with
    | [] => .error "could not get token"
    | car :: cdr =>
      match car.get_symbol with
      | .error e => .error e
      | .ok car_str =>
        if (builtin_funcs car_str).isSome then exec value car_str cdr
        else
          match cdr with
          | _ :: _ =>
            .error ("symbol " ++ car.display ++ " not defined as funtion so it takes arguments")
          | [] => .ok car
  | vl => .ok vl

/-- Fuelled fixpoint of `valueBody`. -/
def valueFuel : Nat → LispExp → Except String LispExp
  | 0, _ => .error "evaluation fuel exhausted"
  | fuel+1, vl => valueBody (fun e => valueFuel fuel e) vl

/-- `LispInfo::value`: the evaluator.  `lsize e` strictly exceeds the
recursion depth (`valueFuel_stable`), so the fuel branch is unreachable. -/
def value (e : LispExp) : Except String LispExp := valueFuel (lsize e) e

/-! ## main -/

/-- Truncation of a rational toward zero, the value of
`f64::to_int_unchecked::<i32>` on in-range inputs. -/
def ratTrunc (q : ℚ) : Int :=
  if 0 ≤ q.num then Int.ofNat (q.num.toNat / q.den)
  else - Int.ofNat ((- q.num).toNat / q.den)

/-- Observable outcome of `main`: a graceful `std::process::exit(code)` or an
abnormal termination (`unwrap`/`expect`/`panic!`) carrying a diagnostic. -/
inductive MainOutcome where
  | exit : Int → MainOutcome
  | panic : String → MainOutcome

/-- `fn main()`, as a function of the source file's content: lex, parse,
reject leftover tokens, evaluate, require a numeric result and exit with it
truncated; every failure `panic`s.  (The exact panic payloads assembled by
`unwrap`/`expect` are abridged to the relevant diagnostic; no claim depends
on their text.) -/
def mainOutcome (content : String) : MainOutcome :=
  match tokens content with
  | .error e => .panic e
  | .ok ts =>
    match parse ts with
    | .error e => .panic ("Lisp Processing Error: " ++ e)
    | .ok (parsed, missing) =>
      match missing with
      | _ :: _ => .panic "not all tokens parsed"
      | [] =>
        match value parsed with
        | .error _ => .panic "failed to run code"
        | .ok res =>
          match res.get_number with
          | .error _ => .panic "code didn't exit with number"
          | .ok code => .exit (ratTrunc code)

/-! ## Structural lemmas about the evaluator -/

/-- Every expression has positive size. -/
lemma lsize_pos (e : LispExp) : 0 < lsize e := by
  cases e <;> simp [lsize]

/-- A member of a list is no bigger than the list. -/
lemma lsizeList_mem {x : LispExp} {l : List LispExp} (h : x ∈ l) :
    lsize x ≤ lsizeList l := by
  induction l with
  | nil => cases h
  | cons a r ih =>
    rcases List.mem_cons.mp h with h1 | h2
    · subst h1; simp [lsizeList]
    · have := ih h2
      simp [lsizeList]
      omega

/-- A member of a list's tail is strictly smaller than the list expression. -/
lemma lsize_lt_of_mem {x car : LispExp} {cdr : List LispExp} (h : x ∈ cdr) :
    lsize x < lsize (.List (car :: cdr)) := by
  have h1 := lsizeList_mem h
  have h2 := lsize_pos car
  simp [lsize, lsizeList]
  omega

/-- `eval_all` only applies the evaluator to members of the list. -/
lemma eval_all_congr (v1 v2 : EvalFn) (l : List LispExp)
    (h : ∀ x ∈ l, v1 x = v2 x) : eval_all v1 l = eval_all v2 l := by
  induction l with
  | nil => rfl
  | cons a r ih =>
    simp only [eval_all]
    rw [h a (by simp), ih (fun x hx => h x (by simp [hx]))]

lemma lisp_add_congr (v1 v2 : EvalFn) (cont : List LispExp)
    (h : eval_all v1 cont = eval_all v2 cont) : lisp_add v1 cont = lisp_add v2 cont := by
  simp only [lisp_add, h]

lemma lisp_sub_congr (v1 v2 : EvalFn) (cont : List LispExp)
    (h : eval_all v1 cont = eval_all v2 cont) : lisp_sub v1 cont = lisp_sub v2 cont := by
  simp only [lisp_sub, h]

lemma lisp_mul_congr (v1 v2 : EvalFn) (cont : List LispExp)
    (h : eval_all v1 cont = eval_all v2 cont) : lisp_mul v1 cont = lisp_mul v2 cont := by
  simp only [lisp_mul, h]

lemma lisp_div_congr (v1 v2 : EvalFn) (cont : List LispExp)
    (h : eval_all v1 cont = eval_all v2 cont) : lisp_div v1 cont = lisp_div v2 cont := by
  simp only [lisp_div, h]

lemma lisp_print_congr (v1 v2 : EvalFn) (cont : List LispExp)
    (h : eval_all v1 cont = eval_all v2 cont) : lisp_print v1 cont = lisp_print v2 cont := by
  simp only [lisp_print, h]

lemma lisp_also_congr (v1 v2 : EvalFn) (cont : List LispExp)
    (h : eval_all v1 cont = eval_all v2 cont) : lisp_also v1 cont = lisp_also v2 cont := by
  simp only [lisp_also, h]

/-- Every registered handler consults the evaluator only through `eval_all`
on the argument list. -/
lemma exec_congr (v1 v2 : EvalFn) (s : String) (cdr : List LispExp)
    (h : ∀ x ∈ cdr, v1 x = v2 x) : exec v1 s cdr = exec v2 s cdr := by
  have he := eval_all_congr v1 v2 cdr h
  simp only [exec, builtin_funcs]
  split_ifs <;>
    first
      | exact lisp_add_congr v1 v2 cdr he
      | exact lisp_sub_congr v1 v2 cdr he
      | exact lisp_mul_congr v1 v2 cdr he
      | exact lisp_div_congr v1 v2 cdr he
      | exact lisp_print_congr v1 v2 cdr he
      | exact lisp_also_congr v1 v2 cdr he
      | rfl

/-- The body of the evaluator applies the recursive evaluator only to
strictly smaller expressions (members of the argument list). -/
lemma valueBody_congr (v1 v2 : EvalFn) (vl : LispExp)
    (h : ∀ x, lsize x < lsize vl → v1 x = v2 x) : valueBody v1 vl = valueBody v2 vl := by
  cases vl with
  | Symbol s => rfl
  | Number q => rfl
  | List stuff =>
    cases stuff with
    | nil => rfl
    | cons car cdr =>
      simp only [valueBody]
      rcases hg : car.get_symbol with e | s
      · rfl
      · by_cases hb : (builtin_funcs s).isSome
        · simp only [hb, if_true]
          exact exec_congr v1 v2 s cdr (fun x hx => h x (lsize_lt_of_mem hx))
        · simp only [hb]; rfl

/-- Any fuel at least `lsize e` evaluates `e` exactly as fuel `lsize e`
does: the fuel-exhaustion branch of `valueFuel` is unreachable from
`value`. -/
lemma valueFuel_stable : ∀ f e, lsize e ≤ f → valueFuel f e = valueFuel (lsize e) e := by
  intro f
  induction f using Nat.strong_induction_on with
  | _ f ih =>
    intro e he
    obtain ⟨f', rfl⟩ : ∃ f', f = f' + 1 := ⟨f - 1, by have := lsize_pos e; omega⟩
    obtain ⟨s', hs⟩ : ∃ s', lsize e = s' + 1 := ⟨lsize e - 1, by have := lsize_pos e; omega⟩
    rw [hs]
    show valueBody (fun x => valueFuel f' x) e = valueBody (fun x => valueFuel s' x) e
    apply valueBody_congr
    intro x hx
    have h1 : valueFuel f' x = valueFuel (lsize x) x := ih f' (by omega) x (by omega)
    have h2 : valueFuel s' x = valueFuel (lsize x) x := ih s' (by omega) x (by omega)
    rw [h1, h2]

/-- The evaluator satisfies the defining equation of `LispInfo::value`: it is
a fixpoint of `valueBody`. -/
lemma value_eq (e : LispExp) : value e = valueBody value e := by
  obtain ⟨s', hs⟩ : ∃ s', lsize e = s' + 1 := ⟨lsize e - 1, by have := lsize_pos e; omega⟩
  show valueFuel (lsize e) e = valueBody value e
  rw [hs]
  show valueBody (fun x => valueFuel s' x) e = valueBody value e
  apply valueBody_congr
  intro x hx
  have hle : lsize x ≤ s' := by omega
  exact valueFuel_stable s' x hle

/-- Dispatch of a `+`-headed list to `lisp_add`. -/
lemma value_plus (args : List LispExp) :
    value (.List (.Symbol "+" :: args)) = lisp_add value args := by
  rw [value_eq]; rfl

/-- `get_floats` on a list of numbers returns exactly those numbers. -/
lemma get_floats_map (qs : List ℚ) : get_floats (qs.map .Number) = .ok qs := by
  induction qs with
  | nil => rfl
  | cons q t ih => simp [get_floats, LispExp.get_number, ih]

/-- `get_number` fails on non-numbers with the `notNumberMsg` message. -/
lemma get_number_of_not_number {w : LispExp} (h : w.isNumber = false) :
    w.get_number = .error (notNumberMsg w) := by
  cases w <;> simp_all [LispExp.isNumber, LispExp.get_number]

/-- If some member of the list is not a number, `get_floats` fails with the
type-mismatch message of such a member. -/
lemma get_floats_err : ∀ l : List LispExp, (∃ w ∈ l, w.isNumber = false) →
    ∃ w, w ∈ l ∧ w.isNumber = false ∧ get_floats l = .error (notNumberMsg w) := by
  intro l
  induction l with
  | nil => rintro ⟨w, hw, _⟩; cases hw
  | cons a t ih =>
    rintro ⟨w, hw, hnn⟩
    by_cases ha : a.isNumber = false
    · refine ⟨a, by simp, ha, ?_⟩
      simp [get_floats, get_number_of_not_number ha]
    · rcases a with s | q | l'
      · simp [LispExp.isNumber] at ha
      · have hwt : w ∈ t := by
          rcases List.mem_cons.mp hw with rfl | h2
          · simp [LispExp.isNumber] at hnn
          · exact h2
        obtain ⟨w', hm, hn, herr⟩ := ih ⟨w, hwt, hnn⟩
        refine ⟨w', by simp [hm], hn, ?_⟩
        simp [get_floats, LispExp.get_number, herr]
      · simp [LispExp.isNumber] at ha

/-! ## Parser lemmas -/

/-- With fuel at least `2·length + 1` (for `parseFuel`) resp. `2·length + 2`
(for `readSeqFuel`), the parser consumes at least one token on success and
can only fail with one of the three structural messages — in particular the
fuel-exhaustion branch is unreachable from `parse`. -/
lemma parseRead_sound : ∀ f : Nat,
    (∀ ts : List String, 2 * ts.length + 1 ≤ f →
      (∀ exp rest, parseFuel f ts = .ok (exp, rest) → rest.length < ts.length) ∧
      (∀ e, parseFuel f ts = .error e →
        e = "could not get token" ∨ e = "unexpected `)`" ∨ e = "could not find closing `)`")) ∧
    (∀ (xs : List String) (res : List LispExp), 2 * xs.length + 2 ≤ f →
      (∀ exp rest, readSeqFuel f xs res = .ok (exp, rest) → rest.length < xs.length) ∧
      (∀ e, readSeqFuel f xs res = .error e →
        e = "could not get token" ∨ e = "unexpected `)`" ∨ e = "could not find closing `)`")) := by
  intro f
  induction f with
  | zero => exact ⟨fun ts h => absurd h (by omega), fun xs res h => absurd h (by omega)⟩
  | succ g ih =>
    constructor
    · intro ts hts
      cases ts with
      | nil =>
        constructor
        · intro exp rest hok; simp [parseFuel] at hok
        · intro e he; simp [parseFuel] at he; simp [he]
      | cons token rest =>
        by_cases hop : token = "("
        · subst hop
          have hr := ih.2 rest [] (by simp at hts ⊢; omega)
          constructor
          · intro exp rest2 hok
            simp only [parseFuel, if_pos rfl] at hok
            have := hr.1 exp rest2 hok
            simp
            omega
          · intro e he
            simp only [parseFuel, if_pos rfl] at he
            exact hr.2 e he
        · by_cases hcl : token = ")"
          · subst hcl
            constructor
            · intro exp rest2 hok
              simp [parseFuel] at hok
            · intro e he
              simp [parseFuel] at he
              simp [he]
          · constructor
            · intro exp rest2 hok
              simp [parseFuel, hop, hcl] at hok
              simp [hok]
            · intro e he
              simp [parseFuel, hop, hcl] at he
    · intro xs res hxs
      cases xs with
      | nil =>
        constructor
        · intro exp rest hok; simp [readSeqFuel] at hok
        · intro e he; simp [readSeqFuel] at he; simp [he]
      | cons next rest =>
        by_cases hcl : next = ")"
        · subst hcl
          constructor
          · intro exp rest2 hok
            simp [readSeqFuel] at hok
            simp [hok]
          · intro e he
            simp [readSeqFuel] at he
        · have hp := ih.1 (next :: rest) (by simp at hxs ⊢; omega)
          rcases hpr : parseFuel g (next :: rest) with e0 | ⟨exp0, new_xs⟩
          · constructor
            · intro exp rest2 hok
              simp [readSeqFuel, hcl, hpr] at hok
            · intro e he
              simp only [readSeqFuel, if_neg hcl, hpr] at he
              cases he
              exact hp.2 e0 hpr
          · have hcons : new_xs.length < (next :: rest).length := hp.1 exp0 new_xs hpr
            have hr := ih.2 new_xs (res ++ [exp0])
              (by simp only [List.length_cons] at hcons hxs ⊢; omega)
            constructor
            · intro exp rest2 hok
              simp only [readSeqFuel, if_neg hcl, hpr] at hok
              have := hr.1 exp rest2 hok
              omega
            · intro e he
              simp only [readSeqFuel, if_neg hcl, hpr] at he
              exact hr.2 e he

/-- `parse` can fail only with the three structural messages. -/
lemma parse_err (ts : List String) (e : String) (h : parse ts = .error e) :
    e = "could not get token" ∨ e = "unexpected `)`" ∨ e = "could not find closing `)`" :=
  ((parseRead_sound (2 * ts.length + 2)).1 ts (by omega)).2 e h

/-- A slice starting with `)` always fails with the unmatched-`)` message. -/
lemma parse_close (rest : List String) : parse (")" :: rest) = .error "unexpected `)`" := by
  have h : 2 * (")" :: rest).length + 2 = 2 * rest.length + 3 + 1 := by
    simp [List.length_cons]; omega
  show parseFuel (2 * (")" :: rest).length + 2) (")" :: rest) = _
  rw [h]
  rfl

/-! ## Claims -/

/-- C1: the `*` and `/` builtin handlers compute exactly the same result as
the `+` handler on every evaluator and argument list — all three evaluate
the arguments, require them numeric, and fold by addition — and in
particular `(* 2 3)` evaluates to the same number as `(+ 2 3)`, namely 5. -/
theorem claim_c1_mul_div_fold_by_addition :
    (∀ (v : EvalFn) (cont : List LispExp),
        lisp_mul v cont = lisp_add v cont ∧ lisp_div v cont = lisp_add v cont) ∧
    value (.List [.Symbol "*", .Number 2, .Number 3]) =
      value (.List [.Symbol "+", .Number 2, .Number 3]) ∧
    value (.List [.Symbol "*", .Number 2, .Number 3]) = .ok (.Number 5) := by
  refine ⟨fun v cont => ⟨rfl, rfl⟩, rfl, ?_⟩
  have h : value (.List [.Symbol "*", .Number 2, .Number 3]) =
      .ok (.Number ((2 : ℚ) + 3)) := rfl
  rw [h]
  norm_num

/-- C2: the `+` builtin first evaluates every argument (propagating
evaluation errors); if the first evaluated argument, or any later one, is
not a `Number` it fails with the `get_number` type mismatch of such an
argument; otherwise it folds the numbers left-to-right by addition starting
from the first; and `(+ 1 2 3)` evaluates to numeric 6. -/
theorem claim_c2_add_builtin :
    (∀ (args : List LispExp) (q : ℚ) (qs : List ℚ),
        eval_all value args = .ok (.Number q :: qs.map .Number) →
        value (.List (.Symbol "+" :: args)) =
          .ok (.Number (qs.foldl (fun acc f => acc + f) q))) ∧
    (∀ (args : List LispExp) (vs : List LispExp),
        eval_all value args = .ok vs → (∃ w ∈ vs, w.isNumber = false) →
        ∃ w, w ∈ vs ∧ w.isNumber = false ∧
          value (.List (.Symbol "+" :: args)) = .error (notNumberMsg w)) ∧
    (∀ (args : List LispExp) (e : String),
        eval_all value args = .error e →
        value (.List (.Symbol "+" :: args)) = .error e) ∧
    value (.List [.Symbol "+", .Number 1, .Number 2, .Number 3]) = .ok (.Number 6) := by
  refine ⟨?_, ?_, ?_, ?_⟩
  · intro args q qs h
    rw [value_plus]
    simp [lisp_add, h, unpack, LispExp.get_number, get_floats_map]
  · intro args vs h hex
    cases vs with
    | nil => obtain ⟨w, hw, -⟩ := hex; cases hw
    | cons v rest =>
      by_cases hv : v.isNumber = false
      · refine ⟨v, by simp, hv, ?_⟩
        rw [value_plus]
        simp [lisp_add, h, unpack, get_number_of_not_number hv]
      · rcases v with s | q | l'
        · simp [LispExp.isNumber] at hv
        · have hext : ∃ w ∈ rest, w.isNumber = false := by
            obtain ⟨w, hw, hnn⟩ := hex
            rcases List.mem_cons.mp hw with rfl | h2
            · simp [LispExp.isNumber] at hnn
            · exact ⟨w, h2, hnn⟩
          obtain ⟨w, hm, hn, herr⟩ := get_floats_err rest hext
          refine ⟨w, by simp [hm], hn, ?_⟩
          rw [value_plus]
          simp [lisp_add, h, unpack, LispExp.get_number, herr]
        · simp [LispExp.isNumber] at hv
  · intro args e h
    rw [value_plus]
    simp [lisp_add, h]
  · have h : value (.List [.Symbol "+", .Number 1, .Number 2, .Number 3]) =
        .ok (.Number ((1 : ℚ) + 2 + 3)) := rfl
    rw [h]
    norm_num

/-- C2 witness: `(+ 1 2 3)` with all three arguments evaluating to numbers
folds them by addition. -/
theorem claim_c2_add_builtin_witness :
    eval_all value [.Number 1, .Number 2, .Number 3] =
      .ok (.Number 1 :: ([2, 3] : List ℚ).map .Number) ∧
    value (.List (.Symbol "+" :: [.Number 1, .Number 2, .Number 3])) =
      .ok (.Number (([2, 3] : List ℚ).foldl (fun acc f => acc + f) 1)) :=
  ⟨rfl, claim_c2_add_builtin.1 [.Number 1, .Number 2, .Number 3] 1 [2, 3] rfl⟩

/-- C3: whenever lexing and parsing succeed with no leftover tokens and the
root expression evaluates to a `Number q`, `main` exits gracefully with `q`
truncated toward zero; a lexer error, parser error, leftover tokens, an
evaluation error, or a non-numeric result each make it panic with a
diagnostic instead. -/
theorem claim_c3_exit_code (content : String) :
    (∀ ts parsed q, tokens content = .ok ts → parse ts = .ok (parsed, []) →
        value parsed = .ok (.Number q) → mainOutcome content = .exit (ratTrunc q)) ∧
    (∀ e, tokens content = .error e → mainOutcome content = .panic e) ∧
    (∀ ts e, tokens content = .ok ts → parse ts = .error e →
        mainOutcome content = .panic ("Lisp Processing Error: " ++ e)) ∧
    (∀ ts parsed t rest, tokens content = .ok ts → parse ts = .ok (parsed, t :: rest) →
        mainOutcome content = .panic "not all tokens parsed") ∧
    (∀ ts parsed e, tokens content = .ok ts → parse ts = .ok (parsed, []) →
        value parsed = .error e → mainOutcome content = .panic "failed to run code") ∧
    (∀ ts parsed res, tokens content = .ok ts → parse ts = .ok (parsed, []) →
        value parsed = .ok res → res.isNumber = false →
        mainOutcome content = .panic "code didn't exit with number") := by
  refine ⟨?_, ?_, ?_, ?_, ?_, ?_⟩
  · intro ts parsed q h1 h2 h3
    simp [mainOutcome, h1, h2, h3, LispExp.get_number, ratTrunc]
  · intro e h1
    simp [mainOutcome, h1]
  · intro ts e h1 h2
    simp [mainOutcome, h1, h2]
  · intro ts parsed t rest h1 h2
    simp [mainOutcome, h1, h2]
  · intro ts parsed e h1 h2 h3
    simp [mainOutcome, h1, h2, h3]
  · intro ts parsed res h1 h2 h3 h4
    simp [mainOutcome, h1, h2, h3, get_number_of_not_number h4]

/-- C3 witness: running `(+ 1 2)` exits with the truncation of the computed
number. -/
theorem claim_c3_exit_code_witness :
    ∃ q : ℚ, mainOutcome "(+ 1 2)" = .exit (ratTrunc q) :=
  ⟨_, (claim_c3_exit_code "(+ 1 2)").1 _ _ _ rfl rfl rfl⟩

/-- C4, as stated, is false on the code: the message uses the misspelling
`funtion` and renders the symbol in double quotes (its `Display` form), so
evaluating `(undefined-name 1 2)` does not produce the claimed
`symbol undefined-name not defined as function so it takes arguments` (nor
its variant with quotes and correct spelling). -/
theorem claim_c4_message_counterexample :
    value (.List [.Symbol "undefined-name", .Number 1, .Number 2]) =
      .error "symbol \"undefined-name\" not defined as funtion so it takes arguments" ∧
    ("symbol \"undefined-name\" not defined as funtion so it takes arguments" ≠
      "symbol undefined-name not defined as function so it takes arguments") ∧
    ("symbol \"undefined-name\" not defined as funtion so it takes arguments" ≠
      "symbol \"undefined-name\" not defined as function so it takes arguments") :=
  ⟨rfl, by decide, by decide⟩

/-- C4 (amended): for a list headed by a symbol that is not a key of the
builtin registry, evaluation with one or more further elements fails with
`symbol "<name>" not defined as funtion so it takes arguments` (sic: the
source misspells `funtion`, and interpolates the head by its `Display` form,
which wraps the symbol text in double quotes); with no further elements it
succeeds and returns the head symbol unchanged. -/
theorem claim_c4_undefined_symbol_amended :
    (∀ (s : String) (a : LispExp) (cdr : List LispExp), builtin_funcs s = none →
        value (.List (.Symbol s :: a :: cdr)) =
          .error ("symbol " ++ (LispExp.Symbol s).display ++
            " not defined as funtion so it takes arguments")) ∧
    (∀ s : String, (LispExp.Symbol s).display = "\"" ++ s ++ "\"") ∧
    (∀ s : String, builtin_funcs s = none →
        value (.List [.Symbol s]) = .ok (.Symbol s)) := by
  refine ⟨?_, ?_, ?_⟩
  · intro s a cdr h
    rw [value_eq]
    simp [valueBody, LispExp.get_symbol, h]
  · intro s
    show displayFuel (lsize (.Symbol s)) (.Symbol s) = _
    have h : lsize (.Symbol s) = 0 + 1 := by simp [lsize]
    rw [h]
    rfl
  · intro s h
    rw [value_eq]
    simp [valueBody, LispExp.get_symbol, h]

/-- C4 witness: `foo` is unregistered; `(foo 1)` fails with the actual
message and `(foo)` returns the symbol. -/
theorem claim_c4_undefined_symbol_witness :
    builtin_funcs "foo" = none ∧
    value (.List [.Symbol "foo", .Number 1]) =
      .error ("symbol " ++ (LispExp.Symbol "foo").display ++
        " not defined as funtion so it takes arguments") ∧
    value (.List [.Symbol "foo"]) = .ok (.Symbol "foo") :=
  ⟨rfl, claim_c4_undefined_symbol_amended.1 "foo" (.Number 1) [] rfl,
    claim_c4_undefined_symbol_amended.2.2 "foo" rfl⟩

/-- C5: evaluating the empty list fails with `could not get token`, and
evaluating a list whose head is not a symbol fails with the `get_symbol`
type mismatch, whose message ends with the name of the head's actual
variant; both errors are produced before any lookup in the builtin
registry, so no handler is dispatched. -/
theorem claim_c5_list_head_errors :
    value (.List []) = .error "could not get token" ∧
    (∀ (hd : LispExp) (tl : List LispExp), hd.isSymbol = false →
        value (.List (hd :: tl)) = .error (notSymbolMsg hd)) ∧
    (∀ e : LispExp, ∃ p : String, notSymbolMsg e = p ++ e.name) := by
  refine ⟨rfl, ?_, fun e => ⟨_, rfl⟩⟩
  intro hd tl h
  rw [value_eq]
  cases hd with
  | Symbol s => simp [LispExp.isSymbol] at h
  | Number q => rfl
  | List l => rfl

/-- C5 witness: a number-headed list fails with the head's type-mismatch
message. -/
theorem claim_c5_list_head_errors_witness :
    (LispExp.Number 1).isSymbol = false ∧
    value (.List [.Number 1]) = .error (notSymbolMsg (.Number 1)) :=
  ⟨rfl, claim_c5_list_head_errors.2.1 (.Number 1) [] rfl⟩

/-- C6: the parser fails exactly in the three structural cases — empty
token slice (`could not get token`), leading `)` (`unexpected ``)```), and
running out of tokens while reading a sequence (`could not find closing
``)```, e.g. on the tokens of `(+ 1 2`) — and every parse error is one of
those three messages. -/
theorem claim_c6_parse_failure_cases :
    parse [] = .error "could not get token" ∧
    (∀ rest : List String, parse (")" :: rest) = .error "unexpected `)`") ∧
    parse ["(", "+", "1", "2"] = .error "could not find closing `)`" ∧
    (∀ (ts : List String) (e : String), parse ts = .error e →
      e = "could not get token" ∨ e = "unexpected `)`" ∨
        e = "could not find closing `)`") :=
  ⟨rfl, parse_close, rfl, parse_err⟩

/-- C6 witness: a bare `)` fails with the unmatched-`)` message, which is
one of the three structural messages. -/
theorem claim_c6_parse_failure_cases_witness :
    parse [")"] = .error "unexpected `)`" ∧
    ("unexpected `)`" = "could not get token" ∨ "unexpected `)`" = "unexpected `)`" ∨
      "unexpected `)`" = "could not find closing `)`") :=
  ⟨claim_c6_parse_failure_cases.2.1 [],
    claim_c6_parse_failure_cases.2.2.2 [")"] "unexpected `)`"
      (claim_c6_parse_failure_cases.2.1 [])⟩

/-- C7: while escaping inside a string literal, exactly one character
resolves the escape — `"` appends a quote, `\` a backslash, `n` a newline,
and anything else aborts the whole tokenization with
`no special formatting for '\<c>'`; consequently the source text `"a\nb"`
lexes to the single token `a`, newline, `b`. -/
theorem claim_c7_string_escapes :
    (∀ (ret : List String) (buf : String),
        tokStep (.OnString true) ret buf '"' = .ok (.OnString false, ret, buf.push '"') ∧
        tokStep (.OnString true) ret buf '\\' = .ok (.OnString false, ret, buf.push '\\') ∧
        tokStep (.OnString true) ret buf 'n' = .ok (.OnString false, ret, buf.push '\n')) ∧
    (∀ (ret : List String) (buf : String) (c : Char), c ≠ '"' → c ≠ '\\' → c ≠ 'n' →
        tokStep (.OnString true) ret buf c =
          .error ("no special formatting for '\\" ++ String.singleton c ++ "'")) ∧
    tokens "\"a\\nb\"" = .ok ["a\nb"] ∧
    tokens "\"\\q\"" = .error "no special formatting for '\\q'" := by
  refine ⟨fun ret buf => ⟨rfl, rfl, rfl⟩, ?_, rfl, rfl⟩
  intro ret buf c h1 h2 h3
  simp [tokStep, h1, h2, h3]

/-- C7 witness: the escape `\q` is rejected with the corresponding
message. -/
theorem claim_c7_string_escapes_witness :
    tokStep (.OnString true) [] "" 'q' =
      .error ("no special formatting for '\\" ++ String.singleton 'q' ++ "'") :=
  claim_c7_string_escapes.2.1 [] "" 'q' (by decide) (by decide) (by decide)

/-- C8: tokenizing `(+ 1 2)` yields exactly `["(", "+", "1", "2", ")"]`;
every successful tokenization contains no empty token (the post-processing
filter drops exactly the empty flushes), and every non-empty emitted token —
in particular every parenthesis — survives the filter. -/
theorem claim_c8_tokenize_no_empty :
    tokens "(+ 1 2)" = .ok ["(", "+", "1", "2", ")"] ∧
    (∀ (content : String) (ts : List String), tokens content = .ok ts →
        ∀ t ∈ ts, t ≠ "") ∧
    (∀ (content : String) (ret : List String) (buf : String) (st : Parser),
        tokensLoop content.toList .OnSymbol [] "" = .ok (ret, buf, st) →
        ∀ t ∈ ret, t ≠ "" → t ∈ ret.filter (fun x => x ≠ "")) := by
  refine ⟨rfl, ?_, ?_⟩
  · intro content ts h t ht
    unfold tokens at h
    rcases hl : tokensLoop content.toList .OnSymbol [] "" with e | ⟨ret, buf, st⟩ <;>
      rw [hl] at h
    · cases h
    · simp only [] at h
      cases h
      have hm := List.mem_filter.mp ht
      exact of_decide_eq_true hm.2
  · intro content ret buf st _ t hm hne
    exact List.mem_filter.mpr ⟨hm, decide_eq_true hne⟩

/-- C8 witness: the parenthesis token of the example survives tokenization
non-empty. -/
theorem claim_c8_tokenize_no_empty_witness : ("(" : String) ≠ "" :=
  claim_c8_tokenize_no_empty.2.1 "(+ 1 2)" ["(", "+", "1", "2", ")"] rfl "(" (by simp)

/-- C9: the token list returned by `tokens` is determined by the emitted
tokens alone — whatever non-empty buffer (or string state) the character
loop ends in is silently discarded, and tokenization still succeeds; in
particular `abc` (no trailing delimiter) and the unterminated literal
`"abc` both lex to the empty token list. -/
theorem claim_c9_pending_buffer_discarded :
    (∀ (content : String) (ret : List String) (buf : String) (st : Parser),
        tokensLoop content.toList .OnSymbol [] "" = .ok (ret, buf, st) →
        tokens content = .ok (ret.filter (fun x => x ≠ ""))) ∧
    tokens "abc" = .ok [] ∧
    tokens "\"abc" = .ok [] := by
  refine ⟨?_, rfl, rfl⟩
  intro content ret buf st h
  unfold tokens
  rw [h]

/-- C9 witness: lexing `abc` ends with pending buffer `abc`, which is
discarded from the successful result. -/
theorem claim_c9_pending_buffer_discarded_witness :
    tokens "abc" = .ok (([] : List String).filter (fun x => x ≠ "")) :=
  claim_c9_pending_buffer_discarded.1 "abc" [] "abc" .OnSymbol rfl

/-- C10, as stated, is false on the code: the bare text `a<CR>b` does not
lex to the single token `ab` — the carriage return is deleted without
flushing, but the end of input then discards the pending buffer, so the
result is the empty token list (which also differs from `["a", "b"]`). -/
theorem claim_c10_cr_counterexample :
    tokens "a\rb" = .ok [] ∧
    (Except.ok ([] : List String) : Except String (List String)) ≠ .ok ["ab"] ∧
    (Except.ok ([] : List String) : Except String (List String)) ≠ .ok ["a", "b"] :=
  ⟨rfl, by simp, by simp⟩

/-- C10 (amended): in the symbol state, a whitespace character other than
space, newline and tab (e.g. carriage return or non-breaking space) is
deleted without flushing the buffer, so it does not separate tokens:
`(a<CR>b)` lexes with the single token `ab` between the parentheses, and
`a<CR>b ` (with a trailing delimiter, since end of input discards the
pending buffer) lexes to the single token `ab` rather than `a` and `b`. -/
theorem claim_c10_other_whitespace_amended :
    (∀ (ret : List String) (buf : String) (c : Char), rustIsWhitespace c = true →
        c ≠ ' ' → c ≠ '\n' → c ≠ '\t' → c ≠ '(' → c ≠ ')' → c ≠ '"' →
        tokStep .OnSymbol ret buf c = .ok (.OnSymbol, ret, buf)) ∧
    tokens "(a\rb)" = .ok ["(", "ab", ")"] ∧
    tokens "a\rb " = .ok ["ab"] := by
  refine ⟨?_, rfl, rfl⟩
  intro ret buf c hws h1 h2 h3 h4 h5 h6
  simp [tokStep, h1, h2, h3, h4, h5, h6, hws]

/-- C10 witness: a carriage return in symbol state is deleted without
flushing. -/
theorem claim_c10_other_whitespace_amended_witness :
    tokStep .OnSymbol [] "a" '\r' = .ok (.OnSymbol, [], "a") :=
  claim_c10_other_whitespace_amended.1 [] "a" '\r' rfl (by decide) (by decide)
    (by decide) (by decide) (by decide) (by decide)

end Sxprs
